import Mathlib

/-!
Verification of the enclave-process supervisor core
(`src/enclave_proc/mod.rs` of aws-nitro-enclaves-cli).

The file shallowly embeds the command dispatcher of the enclave process:
the command enumeration, `get_logger_id`, `try_handle_enclave_event`,
`handle_command` and `process_event_loop`.  External collaborators that are
not part of the embedded source file (the Connection, the Connection
Listener, the Enclave Manager, `run_enclaves`, `describe_enclaves`,
`terminate_enclaves`) are represented by oracle records carrying the results
their calls produce, and by state records modelled from the specification.
Observable behaviour (reads, writes, log warnings, listener stop, thread
join) is recorded in an explicit action trace.
-/

/-- The wire command enumeration (`EnclaveProcessCommandType` in the source). -/
inductive EnclaveProcessCommandType
  | Run
  | Terminate
  | TerminateComplete
  | GetEnclaveCID
  | Describe
  | ConnectionListenerStop
  | NotPermitted
deriving DecidableEq

/-- The classification result of `try_handle_enclave_event` (`HandledEnclaveEvent`). -/
inductive HandledEnclaveEvent
  | HangUp
  | Unexpected
  | None
deriving DecidableEq

/-- Epoll readiness flags that an enclave hardware connection can report.
Flag sets are modelled as lists with set semantics (the source uses a
bitflags value). -/
inductive EFlag
  | EPOLLIN
  | EPOLLOUT
  | EPOLLERR
  | EPOLLHUP
  | EPOLLRDHUP
  | EPOLLPRI
deriving DecidableEq

/-- Status code `libc::EEXIST` (already exists). -/
def EEXIST : Int := 17

/-- Status code `libc::EACCES` (permission denied). -/
def EACCES : Int := 13

/-- Status code `libc::EINVAL` (invalid argument). -/
def EINVAL : Int := 22

/-- Modelled from the spec: the 64-bit protocol confirmation marker written
by the `Describe` handler (`MSG_ENCLAVE_CONFIRM`, declared in the common
module which is not under src/; its concrete value is abstract here). -/
def MSG_ENCLAVE_CONFIRM : Nat := 0xEEC2

/-- The run-configuration payload read after a `Run` command
(`RunEnclavesArgs`); its contents are never inspected by the dispatcher. -/
abbrev RunEnclavesArgs := Nat

/-! ## get_logger_id and Rust rsplit semantics -/

/-- Boolean test that the character list `v` starts with `u`. -/
def isPfx : List Char → List Char → Bool
  | [], _ => true
  | _ :: _, [] => false
  | a :: as, b :: bs => a == b && isPfx as bs

/-- Boolean test that the character list `v` ends with `u`. -/
def isSfx (u v : List Char) : Bool := isPfx u.reverse v.reverse

/-- Leftmost-first splitting of a character list at every non-overlapping
occurrence of the non-empty separator `p`, as Rust's `str::split` performs
it.  `acc` holds the characters of the token being built, reversed.  The
fuel argument bounds the recursion; every call site supplies fuel at least
the length of the scanned list, which makes the fuel-exhausted arm
unreachable (the scanned list shrinks by at least one character per step). -/
def splitAuxF (p : List Char) : Nat → List Char → List Char → List (List Char)
  | 0, acc, _ => [acc.reverse]
  | _ + 1, acc, [] => [acc.reverse]
  | fuel + 1, acc, c :: rest =>
    if isPfx p (c :: rest) then
      acc.reverse :: splitAuxF p fuel [] (List.drop (p.length - 1) rest)
    else
      splitAuxF p fuel (c :: acc) rest

/-- Rust `str::rsplit` on character lists: the tokens produced by searching
for the separator from the right end, rightmost occurrence first.  A
rightmost-first search over `s` is a leftmost-first search over the
reversed string for the reversed separator, with every produced token
reversed back. -/
def rsplitList (p s : List Char) : List (List Char) :=
  (splitAuxF p.reverse s.reverse.length [] s.reverse).map List.reverse

/-- Embedding of `get_logger_id`: split the enclave ID from the right on
`"-enc"`, take the first token (`tokens[0]`; `none` models the
out-of-bounds index failure, shown unreachable below) and build
`"enc-<token>:<pid>"`.  The process id is passed explicitly. -/
def get_logger_id (enclave_id : String) (pid : Nat) : Option String :=
  match rsplitList ("-enc".data) enclave_id.data with
  | [] => none
  | t :: _ => some ("enc-" ++ String.mk t ++ ":" ++ toString pid)

/-- Characters of the token that precedes the first occurrence of `p`
(the whole list when `p` does not occur).  Proof-side companion of
`splitAuxF`. -/
def beforeFirstOcc (p : List Char) : List Char → List Char
  | [] => []
  | c :: rest => if isPfx p (c :: rest) then [] else c :: beforeFirstOcc p rest

/-- Specification-side description of a rightmost separator search: the
characters standing after the last (rightmost) occurrence of the non-empty
pattern `p`, or `none` when `p` does not occur.  Occurrences found further
to the right take precedence. -/
def lastOccSuffix (p : List Char) : List Char → Option (List Char)
  | [] => none
  | c :: rest =>
    match lastOccSuffix p rest with
    | some t => some t
    | none =>
      if isPfx p (c :: rest) then some (List.drop p.length (c :: rest)) else none

/-- Specification-side form of the logger id, following the claim text:
the string `"enc-"`, then the substring after the last occurrence of
`"-enc"` (the whole input when `"-enc"` does not occur), a colon, and the
process id. -/
def loggerIdSpec (enclave_id : String) (pid : Nat) : String :=
  let t :=
    match lastOccSuffix ("-enc".data) enclave_id.data with
    | some u => u
    | none => enclave_id.data
  "enc-" ++ String.mk t ++ ":" ++ toString pid

/-! ## Dispatcher state and external-collaborator oracles -/

deriving instance DecidableEq for Except

/-- Modelled from the spec: the narrow Enclave Manager handle consumed by
the dispatcher (`EnclaveManager` lives in the resource-manager module,
which is not under src/).  It carries the `enclave_id` string (empty when
no enclave is running) and the results its accessor methods
`get_enclave_descriptor` and `get_console_resources` produce. -/
structure EnclaveManager where
  enclave_id : String
  descriptor : Except String Int
  console_cid : Except String Nat
deriving DecidableEq

/-- Modelled from the spec: the observable state of the Connection
Listener (the connection-listener module is not under src/): the number of
registered endpoints, whether the per-enclave listening address has been
started, the tracked enclave hardware descriptor, and whether `stop` has
run. -/
structure ListenerState where
  registered : Nat
  listening : Bool
  enclave_fd : Option Int
  stopped : Bool
deriving DecidableEq

/-- Modelled from the spec: `ConnectionListener.stop` deregisters and
closes every tracked endpoint including the listening address. -/
def stopListener (_l : ListenerState) : ListenerState :=
  { registered := 0, listening := false, enclave_fd := none, stopped := true }

/-- The mutable state threaded through `handle_command`: the Connection
Listener, the Enclave Manager handle, and the optional in-flight
termination-task thread handle. -/
structure DispatchState where
  listener : ListenerState
  manager : EnclaveManager
  thread : Option Unit
deriving DecidableEq

/-- Oracle for the external calls one command handling can make: the typed
read of the run configuration, `run_enclaves`, `ConnectionListener.start`,
the stream-pair creation plus epoll registration done by
`notify_terminate`, and the connection writes of `GetEnclaveCID` and
`Describe`.  Each field is the result the corresponding call returns. -/
structure CmdEnv where
  read_run_args : Except String RunEnclavesArgs
  run_result : Except String EnclaveManager
  start_result : Except String Unit
  pair_result : Except String Unit
  write_cid_result : Except String Unit
  write_confirm_result : Except String Unit
  describe_result : Except String Unit

/-- Observable actions of the dispatcher, recorded as a trace: connection
waits, protocol reads and writes, logger updates, listener lifecycle
operations, thread spawn and join, and log warnings. -/
inductive ProcAction
  | getNextConnection
  | recvCommand (cmd : EnclaveProcessCommandType)
  | readRunArgs
  | updateLoggerId (id : String)
  | listenerStart (enclave_id : String)
  | registerEnclaveFd (fd : Int)
  | spawnTerminateThread
  | writeU64 (v : Nat)
  | listenerStop
  | joinTerminateThread
  | writeStatus (code : Int)
  | eprintln (msg : String)
  | warnUnexpectedFlags (flags : List EFlag)
  | logWarn (msg : String)
deriving DecidableEq

/-- Embedding of `handle_command`: dispatch one command against the current
state, returning the handler result (status code and break flag, or an
error), the updated state, and the trace of external actions performed.
Mutations already performed before a failing step survive the failure, as
they do through the `&mut` references in the source.  Debug formatting of
forwarded error values is abstracted to plain string concatenation. -/
def handle_command (pid : Nat) (cmd : EnclaveProcessCommandType) (env : CmdEnv)
    (st : DispatchState) :
    Except String (Int × Bool) × DispatchState × List ProcAction :=
  match cmd with
  | .Run =>
    if st.manager.enclave_id = "" then
      match env.read_run_args with
      | .error e => (.error ("Failed to get run arguments: " ++ e), st, [.readRunArgs])
      | .ok _args =>
        match env.run_result with
        | .error e => (.error ("Failed to run enclave: " ++ e), st, [.readRunArgs])
        | .ok m =>
          let st1 := { st with manager := m }
          let acts1 := [ProcAction.readRunArgs,
            ProcAction.updateLoggerId ((get_logger_id m.enclave_id pid).getD "")]
          match env.start_result with
          | .error e => (.error ("Failed to start connection listener: " ++ e), st1, acts1)
          | .ok _ =>
            let st2 := { st1 with listener := { st1.listener with listening := true } }
            let acts2 := acts1 ++ [ProcAction.listenerStart m.enclave_id]
            match m.descriptor with
            | .error e => (.error ("Failed to get enclave descriptor: " ++ e), st2, acts2)
            | .ok fd =>
              (.ok (0, false),
               { st2 with listener := { st2.listener with enclave_fd := some fd } },
               acts2 ++ [ProcAction.registerEnclaveFd fd])
    else
      (.ok (EEXIST, false), st, [])
  | .Terminate =>
    match env.pair_result with
    | .error e => (.error ("Failed to create stream pair: " ++ e), st, [])
    | .ok _ =>
      (.ok (0, false),
       { st with thread := some (),
                 listener := { st.listener with registered := st.listener.registered + 1 } },
       [.spawnTerminateThread])
  | .TerminateComplete => (.ok (0, true), st, [])
  | .GetEnclaveCID =>
    match st.manager.console_cid with
    | .error e => (.error ("Failed to get enclave CID: " ++ e), st, [])
    | .ok cid =>
      match env.write_cid_result with
      | .error e => (.error ("Failed to send enclave CID: " ++ e), st, [])
      | .ok _ => (.ok (0, false), st, [.writeU64 cid])
  | .Describe =>
    match env.write_confirm_result with
    | .error e => (.error ("Failed to write confirmation: " ++ e), st, [])
    | .ok _ =>
      match env.describe_result with
      | .error e =>
        (.error ("Failed to describe enclave: " ++ e), st, [.writeU64 MSG_ENCLAVE_CONFIRM])
      | .ok _ => (.ok (0, false), st, [.writeU64 MSG_ENCLAVE_CONFIRM])
  | .ConnectionListenerStop => (.ok (0, true), st, [])
  | .NotPermitted => (.ok (EACCES, false), st, [])

/-- Embedding of `try_handle_enclave_event`: classify a ready connection
from the result of `Connection.get_enclave_event_flags`.  A flag set is
reported only for the enclave hardware connection; the hang-up flag is
removed, remaining flags are logged as unexpected, and the event is
classified as `HangUp` when the hang-up flag was present, `Unexpected`
otherwise.  The classification is paired with the warnings it logs. -/
def try_handle_enclave_event (flagsRes : Except String (Option (List EFlag))) :
    Except String (HandledEnclaveEvent × List ProcAction) :=
  match flagsRes with
  | .error e => .error ("Failed to check for enclave connection: " ++ e)
  | .ok none => .ok (.None, [])
  | .ok (some flags) =>
    let enc_hup := flags.contains EFlag.EPOLLHUP
    let rest := flags.filter (fun f => f != EFlag.EPOLLHUP)
    let logs := if rest.isEmpty then [] else [ProcAction.warnUnexpectedFlags rest]
    if enc_hup then
      .ok (.HangUp,
        logs ++ [ProcAction.logWarn
          "Received hang-up event from the enclave. Enclave process will shut down."])
    else
      .ok (.Unexpected, logs)

/-- One ready connection as the event loop observes it: either the enclave
hardware connection reporting a flag set (or an error while querying it),
or a non-enclave connection from which one command is read (successfully
or not) together with the oracle for the handling of that command. -/
inductive ConnEvent
  | enclaveFlagsErr (e : String)
  | enclaveFlags (flags : List EFlag)
  | command (rc : Except String EnclaveProcessCommandType) (env : CmdEnv)

/-- The flag-query result the given ready connection produces. -/
def connEventFlags : ConnEvent → Except String (Option (List EFlag))
  | .enclaveFlagsErr e => .error e
  | .enclaveFlags fs => .ok (some fs)
  | .command _ _ => .ok none

/-- Loop control after one iteration: continue with the next wait, or
leave the loop through a `break` statement. -/
inductive Ctl
  | cont
  | brk
deriving DecidableEq

/-- The full state of one `process_event_loop` invocation: dispatcher
state, the `done` flag, and the accumulated `ret_value`. -/
structure LoopState where
  disp : DispatchState
  done : Bool
  ret : Except String Unit

/-- Turn a handler result into the status code, the break flag, and the
error-forwarding actions of the `Err` arm (any handler error is sent to the
peer and forces the invalid-argument code with a break). -/
def statusOf : Except String (Int × Bool) → Int × Bool × List ProcAction
  | .ok (c, b) => (c, b, [])
  | .error e => (EINVAL, true, [ProcAction.eprintln ("Error: " ++ e)])

/-- The commands whose handling is replied to with a status code: only
commands coming from a CLI client. -/
def isClientCmd : EnclaveProcessCommandType → Bool
  | .Run => true
  | .Terminate => true
  | .Describe => true
  | _ => false

/-- One iteration of the event loop body (`while !done` body of
`process_event_loop`): wait for a connection, classify a possible enclave
event (hang-up breaks, other enclave events continue, a query error
records an error result and breaks), otherwise read a command (a read
failure is forwarded to the peer and breaks), dispatch it, on a break
condition stop the listener and join the termination thread, and reply
with the status code when the command came from a client. -/
def loopIter (pid : Nat) (st : LoopState) (ev : ConnEvent) :
    LoopState × List ProcAction × Ctl :=
  match try_handle_enclave_event (connEventFlags ev), ev with
  | .error e, _ =>
    ({ st with ret := .error ("Failed to handle enclave event: " ++ e) },
     [ProcAction.getNextConnection], .brk)
  | .ok (.HangUp, logs), _ => (st, ProcAction.getNextConnection :: logs, .brk)
  | .ok (.Unexpected, logs), _ => (st, ProcAction.getNextConnection :: logs, .cont)
  | .ok (.None, _), .command rc env =>
    match rc with
    | .error e =>
      (st,
       [ProcAction.getNextConnection, ProcAction.eprintln ("Failed to read command type: " ++ e)],
       .brk)
    | .ok cmd =>
      match handle_command pid cmd env st.disp with
      | (res, d1, acts) =>
        match statusOf res with
        | (code, doBreak, errActs) =>
          let disp2 :=
            if doBreak then { d1 with listener := stopListener d1.listener, thread := none }
            else d1
          let cleanup : List ProcAction :=
            if doBreak then
              ProcAction.listenerStop ::
                (if d1.thread.isSome then [ProcAction.joinTerminateThread] else [])
            else []
          let reply : List ProcAction :=
            if isClientCmd cmd then [ProcAction.writeStatus code] else []
          ({ disp := disp2, done := doBreak, ret := st.ret },
           ProcAction.getNextConnection :: ProcAction.recvCommand cmd ::
             (acts ++ errActs ++ cleanup ++ reply),
           .cont)
  | .ok (.None, _), _ => (st, [ProcAction.getNextConnection], .cont)

/-- Run the event loop over the given stream of ready connections.
Returns the final state, the concatenated action trace, and whether the
loop has exited (`true` after a `break` or once `done` holds; `false`
means every supplied event was consumed and the loop is still blocked in
the next wait). -/
def runLoop (pid : Nat) : LoopState → List ConnEvent → LoopState × List ProcAction × Bool
  | st, [] => (st, [], st.done)
  | st, ev :: rest =>
    if st.done then (st, [], true)
    else
      match loopIter pid st ev with
      | (st1, tr1, .brk) => (st1, tr1, true)
      | (st1, tr1, .cont) =>
        match runLoop pid st1 rest with
        | (st2, tr2, ex) => (st2, tr1 ++ tr2, ex)

/-- The default Enclave Manager handle at loop start: empty `enclave_id`,
no enclave descriptor, no console resources. -/
def managerDefault : EnclaveManager :=
  { enclave_id := "", descriptor := .error "no enclave", console_cid := .error "no enclave" }

/-- The Connection Listener state right after the successful setup done by
`process_event_loop` before its loop: the signal-handler stream and the
CLI communication channel are registered. -/
def listenerInit : ListenerState :=
  { registered := 2, listening := false, enclave_fd := none, stopped := false }

/-- The dispatcher state at loop entry. -/
def initDisp : DispatchState :=
  { listener := listenerInit, manager := managerDefault, thread := none }

/-- The loop state at loop entry: default manager, not done, success
result. -/
def initLoopState : LoopState :=
  { disp := initDisp, done := false, ret := .ok () }

/-- Oracle for the setup steps of `process_event_loop` that run before the
loop: signal-handler registration and registration of the CLI
communication channel. -/
structure SetupEnv where
  signal_setup : Except String Unit
  comm_register : Except String Unit

/-- Embedding of `process_event_loop`: perform the two epoll setup steps
(each failure is returned immediately), then run the event loop on the
supplied events.  The first component is `some r` when the function has
returned with result `r`, and `none` when the loop consumed every supplied
event without exiting. -/
def process_event_loop (pid : Nat) (setup : SetupEnv) (events : List ConnEvent) :
    Option (Except String Unit) × List ProcAction :=
  match setup.signal_setup with
  | .error e => (some (.error ("Failed to configure signal handler: " ++ e)), [])
  | .ok _ =>
    match setup.comm_register with
    | .error e => (some (.error ("Failed to register new connection with epoll: " ++ e)), [])
    | .ok _ =>
      match runLoop pid initLoopState events with
      | (stf, tr, ex) => (if ex then some stf.ret else none, tr)

/-! ## Concrete states and oracles used by witnesses and counterexamples -/

/-- A concrete Enclave Manager handle for a running enclave. -/
def managerActive : EnclaveManager :=
  { enclave_id := "i-abc-enc1a2b3c", descriptor := .ok 7, console_cid := .ok 16 }

/-- A command oracle on which every external call succeeds. -/
def envDefault : CmdEnv :=
  { read_run_args := .ok 0, run_result := .ok managerActive, start_result := .ok (),
    pair_result := .ok (), write_cid_result := .ok (), write_confirm_result := .ok (),
    describe_result := .ok () }

/-- A command oracle on which `ConnectionListener.start` fails. -/
def envStartFail : CmdEnv := { envDefault with start_result := .error "bind failed" }

/-- A concrete dispatcher state with an active enclave. -/
def dispActive : DispatchState :=
  { listener := { registered := 3, listening := true, enclave_fd := some 7, stopped := false },
    manager := managerActive, thread := none }

/-- A concrete loop state with an active enclave, inside the running loop. -/
def stActive : LoopState := { disp := dispActive, done := false, ret := .ok () }

/-- The setup oracle on which both setup steps succeed. -/
def setupOk : SetupEnv := { signal_setup := .ok (), comm_register := .ok () }


/-- The kinds of actions `handle_command` itself can emit (used to separate
handler actions from the loop-level actions of an iteration). -/
def hcAct : ProcAction → Bool
  | .readRunArgs => true
  | .updateLoggerId _ => true
  | .listenerStart _ => true
  | .registerEnclaveFd _ => true
  | .spawnTerminateThread => true
  | .writeU64 _ => true
  | _ => false

/-- Every action of the list is a termination-thread join or a status
write: the only actions the loop may still perform after it has stopped
the Connection Listener in its final iteration. -/
def tailOk (l : List ProcAction) : Prop :=
  ∀ a ∈ l, a = ProcAction.joinTerminateThread ∨ ∃ k, a = ProcAction.writeStatus k

/-! ## Lemmas about the starts-with and ends-with tests -/

theorem isPfx_nil (v : List Char) : isPfx [] v = true := rfl

theorem isPfx_cons_nil (a : Char) (as : List Char) : isPfx (a :: as) [] = false := rfl

theorem isPfx_cons_cons (a b : Char) (as bs : List Char) :
    isPfx (a :: as) (b :: bs) = (a == b && isPfx as bs) := rfl

theorem isPfx_append {u v : List Char} (h : isPfx u v = true) (w : List Char) :
    isPfx u (v ++ w) = true := by
  induction u generalizing v with
  | nil => exact isPfx_nil _
  | cons a as ih =>
    cases v with
    | nil => rw [isPfx_cons_nil] at h; cases h
    | cons b bs =>
      rw [isPfx_cons_cons, Bool.and_eq_true, beq_iff_eq] at h
      rw [List.cons_append, isPfx_cons_cons, Bool.and_eq_true, beq_iff_eq]
      exact ⟨h.1, ih h.2⟩

theorem isPfx_length {u v : List Char} (h : isPfx u v = true) : u.length ≤ v.length := by
  induction u generalizing v with
  | nil => simp
  | cons a as ih =>
    cases v with
    | nil => rw [isPfx_cons_nil] at h; cases h
    | cons b bs =>
      rw [isPfx_cons_cons, Bool.and_eq_true, beq_iff_eq] at h
      simpa using ih h.2

theorem isPfx_of_snoc {u v : List Char} {c : Char}
    (h : isPfx u (v ++ [c]) = true) (hl : u.length ≤ v.length) : isPfx u v = true := by
  induction u generalizing v with
  | nil => exact isPfx_nil _
  | cons a as ih =>
    cases v with
    | nil => simp at hl
    | cons b bs =>
      rw [List.cons_append, isPfx_cons_cons, Bool.and_eq_true, beq_iff_eq] at h
      simp only [List.length_cons, Nat.add_le_add_iff_right] at hl
      rw [isPfx_cons_cons, Bool.and_eq_true, beq_iff_eq]
      exact ⟨h.1, ih h.2 hl⟩

theorem isPfx_eq {u v : List Char} (h : isPfx u v = true) (hl : u.length = v.length) :
    u = v := by
  induction u generalizing v with
  | nil =>
    cases v with
    | nil => rfl
    | cons b bs => simp at hl
  | cons a as ih =>
    cases v with
    | nil => rw [isPfx_cons_nil] at h; cases h
    | cons b bs =>
      rw [isPfx_cons_cons, Bool.and_eq_true, beq_iff_eq] at h
      simp only [List.length_cons, Nat.add_right_cancel_iff] at hl
      rw [h.1, ih h.2 hl]

theorem isPfx_refl (u : List Char) : isPfx u u = true := by
  induction u with
  | nil => rfl
  | cons a as ih => rw [isPfx_cons_cons, ih]; simp

theorem isSfx_cons_of {p x : List Char} (a : Char) (h : isSfx p x = true) :
    isSfx p (a :: x) = true := by
  simp only [isSfx, List.reverse_cons] at h ⊢
  exact isPfx_append h [a]

theorem isSfx_cons {p x : List Char} {a : Char} (h : isSfx p (a :: x) = true) :
    p = a :: x ∨ isSfx p x = true := by
  simp only [isSfx, List.reverse_cons] at h
  by_cases hl : p.length ≤ x.length
  · right
    simp only [isSfx]
    exact isPfx_of_snoc h (by simpa using hl)
  · left
    have h1 : p.reverse.length ≤ x.reverse.length + 1 := by
      simpa using isPfx_length h
    have h2 : p.reverse.length = (x.reverse ++ [a]).length := by
      simp only [List.length_append, List.length_reverse, List.length_singleton]
      simp only [List.length_reverse] at h1
      omega
    have h3 := isPfx_eq h h2
    have h4 := congrArg List.reverse h3
    simpa [List.reverse_append] using h4

/-! ## Lemmas about lastOccSuffix and the rsplit head -/

theorem lastOccSuffix_nil (p : List Char) : lastOccSuffix p [] = none := rfl

theorem lastOccSuffix_cons (p : List Char) (c : Char) (rest : List Char) :
    lastOccSuffix p (c :: rest) =
      match lastOccSuffix p rest with
      | some t => some t
      | none =>
        if isPfx p (c :: rest) then some (List.drop p.length (c :: rest)) else none := rfl

theorem lastOccSuffix_length {p : List Char} :
    ∀ {t u : List Char}, lastOccSuffix p t = some u → p.length ≤ t.length := by
  intro t
  induction t with
  | nil => intro u h; rw [lastOccSuffix_nil] at h; cases h
  | cons c rest ih =>
    intro u h
    rw [lastOccSuffix_cons] at h
    cases hr : lastOccSuffix p rest with
    | some w =>
      have := ih hr
      simp only [List.length_cons]
      omega
    | none =>
      rw [hr] at h
      by_cases hpc : isPfx p (c :: rest) = true
      · simpa using isPfx_length hpc
      · rw [if_neg hpc] at h; cases h

theorem isPfx_singleton {p : List Char} {c : Char} (hp : p ≠ []) :
    isPfx p [c] = true ↔ p = [c] := by
  cases p with
  | nil => exact absurd rfl hp
  | cons a as =>
    cases as with
    | nil =>
      rw [isPfx_cons_cons]
      simp [isPfx_nil]
    | cons b bs =>
      rw [isPfx_cons_cons, isPfx_cons_nil]
      simp

theorem isSfx_singleton {p : List Char} {c : Char} (hp : p ≠ []) :
    isSfx p [c] = true ↔ p = [c] := by
  have hrev : p.reverse ≠ [] := by
    intro h
    exact hp (by simpa using congrArg List.reverse h)
  constructor
  · intro h
    simp only [isSfx] at h
    have h2 := (isPfx_singleton hrev).mp (by simpa using h)
    have h3 := congrArg List.reverse h2
    simpa using h3
  · intro h
    rw [h]
    simp only [isSfx]
    exact isPfx_refl _

theorem lastOccSuffix_snoc {p : List Char} (hp : p ≠ []) (t : List Char) (c : Char) :
    lastOccSuffix p (t ++ [c]) =
      if isSfx p (t ++ [c]) = true then some [] else
        Option.map (fun u => u ++ [c]) (lastOccSuffix p t) := by
  induction t with
  | nil =>
    rw [List.nil_append, lastOccSuffix_cons, lastOccSuffix_nil]
    show (if isPfx p [c] = true then some (List.drop p.length [c]) else none) =
      if isSfx p [c] = true then some [] else Option.map (fun u => u ++ [c]) none
    by_cases hpc : p = [c]
    · rw [if_pos ((isPfx_singleton hp).mpr hpc), if_pos ((isSfx_singleton hp).mpr hpc), hpc]
      rfl
    · rw [if_neg (fun h => hpc ((isPfx_singleton hp).mp h)),
          if_neg (fun h => hpc ((isSfx_singleton hp).mp h))]
      rfl
  | cons a t' ih =>
    rw [List.cons_append, lastOccSuffix_cons, ih]
    by_cases h1 : isSfx p (t' ++ [c]) = true
    · rw [if_pos h1]
      have h2 : isSfx p (a :: (t' ++ [c])) = true := isSfx_cons_of a h1
      rw [if_pos h2]
    · rw [if_neg h1]
      cases h2 : lastOccSuffix p t' with
      | some u =>
        have hlen := lastOccSuffix_length h2
        have h3 : ¬ isSfx p (a :: (t' ++ [c])) = true := by
          intro hs
          rcases isSfx_cons hs with heq | hs2
          · have hplen : p.length = t'.length + 2 := by rw [heq]; simp
            omega
          · exact h1 hs2
        rw [if_neg h3, lastOccSuffix_cons, h2]
        rfl
      | none =>
        by_cases h3 : isPfx p (a :: t') = true
        · have h4 : isPfx p (a :: (t' ++ [c])) = true := by
            have := isPfx_append h3 [c]
            simpa using this
          have hlen : p.length ≤ t'.length + 1 := by simpa using isPfx_length h3
          have h5 : ¬ isSfx p (a :: (t' ++ [c])) = true := by
            intro hs
            rcases isSfx_cons hs with heq | hs2
            · have hplen : p.length = t'.length + 2 := by rw [heq]; simp
              omega
            · exact h1 hs2
          have hdrop : List.drop p.length (a :: (t' ++ [c])) =
              List.drop p.length (a :: t') ++ [c] := by
            rw [← List.cons_append, List.drop_append_eq_append_drop,
              Nat.sub_eq_zero_of_le (by simpa using hlen), List.drop_zero]
          simp [h2, h3, h4, h5, lastOccSuffix_cons, hdrop]
        · by_cases h4 : isPfx p (a :: (t' ++ [c])) = true
          · have hle : p.length ≤ t'.length + 2 := by simpa using isPfx_length h4
            have hgt : ¬ p.length ≤ t'.length + 1 := by
              intro hle1
              apply h3
              apply @isPfx_of_snoc p (a :: t') c
              · simpa using h4
              · simpa using hle1
            have heq : p = a :: (t' ++ [c]) := by
              apply isPfx_eq h4
              simp only [List.length_cons, List.length_append, List.length_nil]
              omega
            have h5 : isSfx p (a :: (t' ++ [c])) = true := by
              rw [heq]
              simp only [isSfx]
              exact isPfx_refl _
            have hdrop : List.drop p.length (a :: (t' ++ [c])) = [] := by
              rw [heq]
              exact List.drop_length _
            simp [h2, h4, h5, hdrop]
          · have h5 : ¬ isSfx p (a :: (t' ++ [c])) = true := by
              intro hs
              rcases isSfx_cons hs with heq | hs2
              · apply h4
                rw [heq]
                exact isPfx_refl _
              · exact h1 hs2
            simp [h2, h3, h4, h5, lastOccSuffix_cons]

theorem splitAuxF_head {p : List Char} : ∀ (fuel : Nat) (s acc : List Char),
    s.length ≤ fuel →
    (splitAuxF p fuel acc s).head? = some (acc.reverse ++ beforeFirstOcc p s) := by
  intro fuel
  induction fuel with
  | zero =>
    intro s acc hs
    have hnil : s = [] := List.eq_nil_of_length_eq_zero (Nat.le_zero.mp hs)
    subst hnil
    simp [splitAuxF, beforeFirstOcc]
  | succ fuel ih =>
    intro s acc hs
    cases s with
    | nil => simp [splitAuxF, beforeFirstOcc]
    | cons c rest =>
      by_cases h : isPfx p (c :: rest) = true
      · simp [splitAuxF, beforeFirstOcc, h]
      · have hfalse : isPfx p (c :: rest) = false := Bool.eq_false_iff.mpr h
        have hlen : rest.length ≤ fuel := by
          simp only [List.length_cons] at hs
          omega
        rw [show splitAuxF p (fuel + 1) acc (c :: rest) = splitAuxF p fuel (c :: acc) rest
          from by simp [splitAuxF, hfalse]]
        rw [ih rest (c :: acc) hlen]
        simp [beforeFirstOcc, hfalse]

theorem beforeFirstOcc_reverse {p : List Char} (hp : p ≠ []) : ∀ (r : List Char),
    (beforeFirstOcc p.reverse r).reverse = (lastOccSuffix p r.reverse).getD r.reverse := by
  intro r
  induction r with
  | nil => simp [beforeFirstOcc, lastOccSuffix_nil]
  | cons c r' ih =>
    have hrev : (c :: r').reverse = r'.reverse ++ [c] := by simp
    rw [hrev, lastOccSuffix_snoc hp r'.reverse c]
    have hcond : isSfx p (r'.reverse ++ [c]) = isPfx p.reverse (c :: r') := by
      simp [isSfx, List.reverse_append]
    by_cases hc : isPfx p.reverse (c :: r') = true
    · rw [if_pos (hcond.trans hc)]
      simp [beforeFirstOcc, hc]
    · have hc' : ¬ isSfx p (r'.reverse ++ [c]) = true := by
        rw [hcond]
        exact hc
      rw [if_neg hc']
      cases hopt : lastOccSuffix p r'.reverse with
      | none =>
        rw [hopt] at ih
        simp only [Option.getD_none] at ih
        simp [beforeFirstOcc, hc, ih]
      | some u =>
        rw [hopt] at ih
        simp only [Option.getD_some] at ih
        simp [beforeFirstOcc, hc, ih]

/-- Claim C10: `get_logger_id` is total — `rsplit` on `"-enc"` always yields
at least one token, so the `tokens[0]` access cannot go out of bounds — and
it returns the string `"enc-"` followed by the substring after the last
occurrence of `"-enc"` (the whole input when `"-enc"` does not occur), a
colon, and the process id. -/
theorem c10_theorem (enclave_id : String) (pid : Nat) :
    get_logger_id enclave_id pid = some (loggerIdSpec enclave_id pid) := by
  have hp : ("-enc".data : List Char) ≠ [] := by decide
  have hhead := @splitAuxF_head (("-enc".data).reverse)
    enclave_id.data.reverse.length enclave_id.data.reverse [] le_rfl
  have hbfo := beforeFirstOcc_reverse hp enclave_id.data.reverse
  rw [List.reverse_reverse] at hbfo
  cases hsp : splitAuxF ("-enc".data).reverse enclave_id.data.reverse.length []
      enclave_id.data.reverse with
  | nil =>
    rw [hsp] at hhead
    cases hhead
  | cons t tl =>
    rw [hsp] at hhead
    simp only [List.head?_cons, Option.some_inj, List.reverse_nil, List.nil_append] at hhead
    have hrev : t.reverse =
        (lastOccSuffix ("-enc".data) enclave_id.data).getD enclave_id.data := by
      rw [hhead]
      exact hbfo
    simp only [get_logger_id, rsplitList, hsp, List.map_cons]
    simp only [loggerIdSpec]
    rw [hrev]
    cases hlo : lastOccSuffix ("-enc".data) enclave_id.data <;> simp [hlo]

/-! ## Lemmas about handle_command -/

theorem hc_acts_shape (pid : Nat) (cmd : EnclaveProcessCommandType) (env : CmdEnv)
    (st : DispatchState) :
    ((handle_command pid cmd env st).2.2).all hcAct = true := by
  cases cmd <;> simp only [handle_command] <;> (repeat' split) <;> rfl

theorem hc_act_mem {pid : Nat} {cmd : EnclaveProcessCommandType} {env : CmdEnv}
    {st : DispatchState} {a : ProcAction}
    (ha : a ∈ (handle_command pid cmd env st).2.2) : hcAct a = true :=
  List.all_eq_true.mp (hc_acts_shape pid cmd env st) a ha

theorem hc_thread_mono (pid : Nat) (cmd : EnclaveProcessCommandType) (env : CmdEnv)
    (st : DispatchState) :
    (handle_command pid cmd env st).2.1.thread = st.thread ∨
    (handle_command pid cmd env st).2.1.thread = some () := by
  cases cmd <;> simp only [handle_command] <;> (repeat' split) <;> simp

theorem hc_thread_spawn (pid : Nat) (cmd : EnclaveProcessCommandType) (env : CmdEnv)
    (st : DispatchState)
    (h : ProcAction.spawnTerminateThread ∈ (handle_command pid cmd env st).2.2) :
    (handle_command pid cmd env st).2.1.thread = some () := by
  cases cmd <;> simp only [handle_command] at h ⊢ <;> (repeat' split) <;> simp_all

theorem hc_manager_other (pid : Nat) (cmd : EnclaveProcessCommandType) (env : CmdEnv)
    (st : DispatchState) (h : cmd ≠ .Run) :
    (handle_command pid cmd env st).2.1.manager = st.manager := by
  cases cmd <;> simp only [handle_command] <;> (repeat' split) <;> simp_all

theorem hc_run_nonempty (pid : Nat) (env : CmdEnv) (st : DispatchState)
    (h : ¬ st.manager.enclave_id = "") :
    handle_command pid .Run env st = (.ok (EEXIST, false), st, []) := by
  simp [handle_command, h]

theorem hc_run_empty (pid : Nat) (env : CmdEnv) (st : DispatchState)
    (h : st.manager.enclave_id = "") :
    (handle_command pid .Run env st).2.1.manager = st.manager ∨
    ∃ m, env.run_result = .ok m ∧ (handle_command pid .Run env st).2.1.manager = m := by
  simp only [handle_command, if_pos h]
  cases env.read_run_args with
  | error e => left; rfl
  | ok args =>
    cases hr : env.run_result with
    | error e => left; simp
    | ok m =>
      right
      refine ⟨m, rfl, ?_⟩
      cases hs : env.start_result <;> cases hd : m.descriptor <;> simp [hs, hd]

/-! ## Iteration and loop equations -/

theorem loopIter_readErr (pid : Nat) (st : LoopState) (e : String) (env : CmdEnv) :
    loopIter pid st (.command (.error e) env) =
      (st, [ProcAction.getNextConnection,
            ProcAction.eprintln ("Failed to read command type: " ++ e)], .brk) := rfl

theorem loopIter_flagsErr (pid : Nat) (st : LoopState) (e : String) :
    loopIter pid st (.enclaveFlagsErr e) =
      ({ st with ret := .error ("Failed to handle enclave event: " ++
          ("Failed to check for enclave connection: " ++ e)) },
       [ProcAction.getNextConnection], .brk) := rfl

theorem loopIter_cmd (pid : Nat) (st : LoopState) (cmd : EnclaveProcessCommandType)
    (env : CmdEnv) :
    loopIter pid st (.command (.ok cmd) env) =
      ({ disp := if (statusOf (handle_command pid cmd env st.disp).1).2.1 then
           { (handle_command pid cmd env st.disp).2.1 with
             listener := stopListener (handle_command pid cmd env st.disp).2.1.listener,
             thread := none }
         else (handle_command pid cmd env st.disp).2.1,
         done := (statusOf (handle_command pid cmd env st.disp).1).2.1, ret := st.ret },
       ProcAction.getNextConnection :: ProcAction.recvCommand cmd ::
         ((handle_command pid cmd env st.disp).2.2 ++
          (statusOf (handle_command pid cmd env st.disp).1).2.2 ++
          (if (statusOf (handle_command pid cmd env st.disp).1).2.1 then
            ProcAction.listenerStop ::
              (if (handle_command pid cmd env st.disp).2.1.thread.isSome then
                [ProcAction.joinTerminateThread] else []) else []) ++
          (if isClientCmd cmd then
            [ProcAction.writeStatus (statusOf (handle_command pid cmd env st.disp).1).1]
           else [])),
       .cont) := rfl

theorem loopIter_flags_hup (pid : Nat) (st : LoopState) (flags : List EFlag)
    (h : flags.contains EFlag.EPOLLHUP = true) :
    loopIter pid st (.enclaveFlags flags) =
      (st, ProcAction.getNextConnection ::
        ((if (flags.filter (fun f => f != EFlag.EPOLLHUP)).isEmpty then [] else
            [ProcAction.warnUnexpectedFlags (flags.filter (fun f => f != EFlag.EPOLLHUP))]) ++
          [ProcAction.logWarn
            "Received hang-up event from the enclave. Enclave process will shut down."]),
       .brk) := by
  have hm : EFlag.EPOLLHUP ∈ flags := by simpa using h
  simp [loopIter, connEventFlags, try_handle_enclave_event, hm]

theorem loopIter_flags_nohup (pid : Nat) (st : LoopState) (flags : List EFlag)
    (h : flags.contains EFlag.EPOLLHUP = false) :
    loopIter pid st (.enclaveFlags flags) =
      (st, ProcAction.getNextConnection ::
        (if (flags.filter (fun f => f != EFlag.EPOLLHUP)).isEmpty then [] else
          [ProcAction.warnUnexpectedFlags (flags.filter (fun f => f != EFlag.EPOLLHUP))]),
       .cont) := by
  have hm : EFlag.EPOLLHUP ∉ flags := by simpa using h
  simp [loopIter, connEventFlags, try_handle_enclave_event, hm]

theorem runLoop_nil (pid : Nat) (st : LoopState) : runLoop pid st [] = (st, [], st.done) := rfl

theorem runLoop_done (pid : Nat) (st : LoopState) (h : st.done = true)
    (events : List ConnEvent) : runLoop pid st events = (st, [], true) := by
  cases events with
  | nil => simp [runLoop, h]
  | cons e rest => simp [runLoop, h]

theorem runLoop_cons (pid : Nat) (st : LoopState) (ev : ConnEvent) (rest : List ConnEvent)
    (h : st.done = false) :
    runLoop pid st (ev :: rest) =
      (match loopIter pid st ev with
       | (st1, tr1, .brk) => (st1, tr1, true)
       | (st1, tr1, .cont) =>
         match runLoop pid st1 rest with
         | (st2, tr2, ex) => (st2, tr1 ++ tr2, ex)) := by
  simp [runLoop, h]

/-! ## Per-iteration facts -/

theorem iter_facts (pid : Nat) (st : LoopState) (ev : ConnEvent) (hdone : st.done = false) :
    ((loopIter pid st ev).2.2 = Ctl.brk →
      (loopIter pid st ev).1.done = false ∧
      ProcAction.listenerStop ∉ (loopIter pid st ev).2.1 ∧
      (loopIter pid st ev).1.disp = st.disp) ∧
    ((loopIter pid st ev).2.2 = Ctl.cont →
      ((ProcAction.listenerStop ∈ (loopIter pid st ev).2.1) ↔
        (loopIter pid st ev).1.done = true) ∧
      ((loopIter pid st ev).1.done = true →
        (loopIter pid st ev).1.disp.listener.registered = 0 ∧
        (loopIter pid st ev).1.disp.thread = none ∧
        ∃ pre mid, (loopIter pid st ev).2.1 = pre ++ ProcAction.listenerStop :: mid ∧
          ProcAction.listenerStop ∉ pre ∧ tailOk mid)) ∧
    (ProcAction.spawnTerminateThread ∈ (loopIter pid st ev).2.1 →
      (loopIter pid st ev).1.disp.thread.isSome = true ∨
      ProcAction.joinTerminateThread ∈ (loopIter pid st ev).2.1) ∧
    (st.disp.thread.isSome = true →
      (loopIter pid st ev).1.disp.thread.isSome = true ∨
      ProcAction.joinTerminateThread ∈ (loopIter pid st ev).2.1) ∧
    ((loopIter pid st ev).1.done = true → (loopIter pid st ev).1.disp.thread = none) ∧
    (st.disp.manager.enclave_id ≠ "" →
      (loopIter pid st ev).1.disp.manager = st.disp.manager) := by
  cases ev with
  | enclaveFlagsErr e =>
    rw [loopIter_flagsErr]
    simp [hdone]
  | enclaveFlags flags =>
    cases hb : flags.contains EFlag.EPOLLHUP with
    | true =>
      rw [loopIter_flags_hup pid st flags hb]
      split <;> simp [hdone]
    | false =>
      rw [loopIter_flags_nohup pid st flags hb]
      split <;> simp [hdone]
  | command rc env =>
    cases rc with
    | error e =>
      rw [loopIter_readErr]
      simp [hdone]
    | ok cmd =>
      rw [loopIter_cmd]
      rcases hhc : handle_command pid cmd env st.disp with ⟨res, d1, acts⟩
      have hstopa : ProcAction.listenerStop ∉ acts := by
        intro hmem
        have h2 := @hc_act_mem pid cmd env st.disp
          ProcAction.listenerStop (by rw [hhc]; exact hmem)
        simp [hcAct] at h2
      have hjoina : ProcAction.joinTerminateThread ∉ acts := by
        intro hmem
        have h2 := @hc_act_mem pid cmd env st.disp
          ProcAction.joinTerminateThread (by rw [hhc]; exact hmem)
        simp [hcAct] at h2
      have hthreadmono : d1.thread = st.disp.thread ∨ d1.thread = some () := by
        have h2 := hc_thread_mono pid cmd env st.disp
        rw [hhc] at h2
        exact h2
      have hthreadspawn : ProcAction.spawnTerminateThread ∈ acts → d1.thread = some () := by
        intro hm
        have h2 := hc_thread_spawn pid cmd env st.disp (by rw [hhc]; exact hm)
        rw [hhc] at h2
        exact h2
      have hmgr : st.disp.manager.enclave_id ≠ "" → d1.manager = st.disp.manager := by
        intro hne
        by_cases hRun : cmd = .Run
        · subst hRun
          have h2 := hc_run_nonempty pid env st.disp hne
          rw [hhc] at h2
          have h3 := congrArg (fun x => x.2.1) h2
          simpa using congrArg DispatchState.manager h3
        · have h2 := hc_manager_other pid cmd env st.disp hRun
          rw [hhc] at h2
          exact h2
      cases res with
      | ok cb =>
        rcases cb with ⟨c, b⟩
        cases b with
        | false =>
          simp only [statusOf]
          refine ⟨?_, ?_, ?_, ?_, ?_, ?_⟩
          · intro h
            cases h
          · intro _
            constructor
            · constructor
              · intro hmem
                cases hcl : isClientCmd cmd <;> simp [hcl, hstopa] at hmem
              · intro h
                simp at h
            · intro h
              simp at h
          · intro hmem
            have hacts : ProcAction.spawnTerminateThread ∈ acts := by
              cases hcl : isClientCmd cmd <;> simp [hcl] at hmem <;> exact hmem
            left
            simp [hthreadspawn hacts]
          · intro hsome
            left
            rcases hthreadmono with h | h <;> simp [h, hsome]
          · intro h
            simp at h
          · intro hne
            simpa using hmgr hne
        | true =>
          simp only [statusOf]
          refine ⟨?_, ?_, ?_, ?_, ?_, ?_⟩
          · intro h
            cases h
          · intro _
            refine ⟨by simp, fun _ => ⟨rfl, rfl, ?_⟩⟩
            refine ⟨ProcAction.getNextConnection :: ProcAction.recvCommand cmd :: acts,
              (if d1.thread.isSome then [ProcAction.joinTerminateThread] else []) ++
                (if isClientCmd cmd then [ProcAction.writeStatus c] else []), ?_, ?_, ?_⟩
            · simp [List.append_assoc]
            · simp [hstopa]
            · intro a ha
              rw [List.mem_append] at ha
              rcases ha with h | h
              · cases hth : d1.thread.isSome
                · rw [hth] at h
                  simp at h
                · rw [hth] at h
                  simp at h
                  exact Or.inl h
              · cases hcl : isClientCmd cmd
                · rw [hcl] at h
                  simp at h
                · rw [hcl] at h
                  simp at h
                  exact Or.inr ⟨c, h⟩
          · intro hmem
            have hacts : ProcAction.spawnTerminateThread ∈ acts := by
              cases hth : d1.thread.isSome <;> cases hcl : isClientCmd cmd <;>
                simp [hth, hcl] at hmem <;> exact hmem
            right
            have hsome : d1.thread.isSome = true := by simp [hthreadspawn hacts]
            simp [hsome]
          · intro hsome
            right
            have hsome1 : d1.thread.isSome = true := by
              rcases hthreadmono with h | h <;> simp [h, hsome]
            simp [hsome1]
          · intro _
            rfl
          · intro hne
            simpa using hmgr hne
      | error e =>
        simp only [statusOf]
        refine ⟨?_, ?_, ?_, ?_, ?_, ?_⟩
        · intro h
          cases h
        · intro _
          refine ⟨by simp, fun _ => ⟨rfl, rfl, ?_⟩⟩
          refine ⟨ProcAction.getNextConnection :: ProcAction.recvCommand cmd ::
              (acts ++ [ProcAction.eprintln ("Error: " ++ e)]),
            (if d1.thread.isSome then [ProcAction.joinTerminateThread] else []) ++
              (if isClientCmd cmd then [ProcAction.writeStatus EINVAL] else []), ?_, ?_, ?_⟩
          · simp [List.append_assoc]
          · simp [hstopa]
          · intro a ha
            rw [List.mem_append] at ha
            rcases ha with h | h
            · cases hth : d1.thread.isSome
              · rw [hth] at h
                simp at h
              · rw [hth] at h
                simp at h
                exact Or.inl h
            · cases hcl : isClientCmd cmd
              · rw [hcl] at h
                simp at h
              · rw [hcl] at h
                simp at h
                exact Or.inr ⟨EINVAL, h⟩
        · intro hmem
          have hacts : ProcAction.spawnTerminateThread ∈ acts := by
            cases hth : d1.thread.isSome <;> cases hcl : isClientCmd cmd <;>
              simp [hth, hcl] at hmem <;> exact hmem
          right
          have hsome : d1.thread.isSome = true := by simp [hthreadspawn hacts]
          simp [hsome]
        · intro hsome
          right
          have hsome1 : d1.thread.isSome = true := by
            rcases hthreadmono with h | h <;> simp [h, hsome]
          simp [hsome1]
        · intro _
          rfl
        · intro hne
          simpa using hmgr hne

/-! ## Loop-level invariants -/

theorem loop_facts (pid : Nat) : ∀ (events : List ConnEvent) (st : LoopState),
    st.done = false →
    ((ProcAction.listenerStop ∈ (runLoop pid st events).2.1) ↔
      (runLoop pid st events).1.done = true) ∧
    ((runLoop pid st events).1.done = true →
      (runLoop pid st events).1.disp.listener.registered = 0 ∧
      (runLoop pid st events).1.disp.thread = none ∧
      ∃ pre mid, (runLoop pid st events).2.1 = pre ++ ProcAction.listenerStop :: mid ∧
        ProcAction.listenerStop ∉ pre ∧ tailOk mid) ∧
    (ProcAction.spawnTerminateThread ∈ (runLoop pid st events).2.1 →
      (runLoop pid st events).1.disp.thread.isSome = true ∨
      ProcAction.joinTerminateThread ∈ (runLoop pid st events).2.1) ∧
    (st.disp.thread.isSome = true →
      (runLoop pid st events).1.disp.thread.isSome = true ∨
      ProcAction.joinTerminateThread ∈ (runLoop pid st events).2.1) ∧
    (st.disp.manager.enclave_id ≠ "" →
      (runLoop pid st events).1.disp.manager = st.disp.manager) := by
  intro events
  induction events with
  | nil =>
    intro st hdone
    rw [runLoop_nil]
    simp [hdone]
  | cons ev rest ih =>
    intro st hdone
    rcases hiter : loopIter pid st ev with ⟨st1, tr1, ctl⟩
    have hfacts := iter_facts pid st ev hdone
    rw [hiter] at hfacts
    dsimp only at hfacts
    cases ctl with
    | brk =>
      have hrun : runLoop pid st (ev :: rest) = (st1, tr1, true) := by
        rw [runLoop_cons pid st ev rest hdone, hiter]
      rw [hrun]
      dsimp only
      obtain ⟨hb1, hb2, hb3⟩ := hfacts.1 rfl
      refine ⟨?_, ?_, ?_, ?_, ?_⟩
      · simp [hb1, hb2]
      · intro h
        rw [hb1] at h
        cases h
      · intro hmem
        exact hfacts.2.2.1 hmem
      · intro hsome
        exact hfacts.2.2.2.1 hsome
      · intro hne
        rw [hb3]
    | cont =>
      rcases hrest : runLoop pid st1 rest with ⟨st2, tr2, ex⟩
      have hrun : runLoop pid st (ev :: rest) = (st2, tr1 ++ tr2, ex) := by
        rw [runLoop_cons pid st ev rest hdone, hiter]
        dsimp only
        rw [hrest]
      rw [hrun]
      dsimp only
      have hcont := hfacts.2.1 rfl
      by_cases hd1 : st1.done = true
      · have hdn := runLoop_done pid st1 hd1 rest
        rw [hrest] at hdn
        obtain ⟨he1, he2, he3⟩ : st2 = st1 ∧ tr2 = [] ∧ ex = true := by
          have h1 := congrArg (fun x => x.1) hdn
          have h2 := congrArg (fun x => x.2.1) hdn
          have h3 := congrArg (fun x => x.2.2) hdn
          exact ⟨h1, h2, h3⟩
        subst he1
        subst he2
        subst he3
        obtain ⟨hr0, hrthread, pre, mid, hdec, hpre, hmid⟩ := hcont.2 hd1
        refine ⟨?_, ?_, ?_, ?_, ?_⟩
        · simp only [List.append_nil]
          rw [hd1]
          simp [hcont.1, hd1]
        · intro _
          refine ⟨hr0, hrthread, pre, mid, ?_, hpre, hmid⟩
          simpa using hdec
        · intro hmem
          simp only [List.append_nil] at hmem ⊢
          rcases hfacts.2.2.1 hmem with h | h
          · rw [hrthread] at h
            cases h
          · exact Or.inr h
        · intro hsome
          simp only [List.append_nil]
          rcases hfacts.2.2.2.1 hsome with h | h
          · rw [hrthread] at h
            cases h
          · exact Or.inr h
        · intro hne
          exact hfacts.2.2.2.2.2 hne
      · have hd1f : st1.done = false := Bool.eq_false_iff.mpr hd1
        have hIH := ih st1 hd1f
        rw [hrest] at hIH
        dsimp only at hIH
        have hstop1 : ProcAction.listenerStop ∉ tr1 := by
          intro hmem
          exact hd1 (hcont.1.mp hmem)
        refine ⟨?_, ?_, ?_, ?_, ?_⟩
        · rw [List.mem_append]
          constructor
          · intro h
            rcases h with h | h
            · exact absurd h hstop1
            · exact hIH.1.mp h
          · intro h
            exact Or.inr (hIH.1.mpr h)
        · intro hd2
          obtain ⟨hr0, hrthread, pre, mid, hdec, hpre, hmid⟩ := hIH.2.1 hd2
          refine ⟨hr0, hrthread, tr1 ++ pre, mid, ?_, ?_, hmid⟩
          · rw [hdec, List.append_assoc]
          · intro hmem
            rcases List.mem_append.mp hmem with h | h
            · exact hstop1 h
            · exact hpre h
        · intro hmem
          rcases List.mem_append.mp hmem with h | h
          · rcases hfacts.2.2.1 h with h1 | h1
            · rcases hIH.2.2.2.1 h1 with h2 | h2
              · exact Or.inl h2
              · exact Or.inr (List.mem_append.mpr (Or.inr h2))
            · exact Or.inr (List.mem_append.mpr (Or.inl h1))
          · rcases hIH.2.2.1 h with h1 | h1
            · exact Or.inl h1
            · exact Or.inr (List.mem_append.mpr (Or.inr h1))
        · intro hsome
          rcases hfacts.2.2.2.1 hsome with h1 | h1
          · rcases hIH.2.2.2.1 h1 with h2 | h2
            · exact Or.inl h2
            · exact Or.inr (List.mem_append.mpr (Or.inr h2))
          · exact Or.inr (List.mem_append.mpr (Or.inl h1))
        · intro hne
          have h1 := hfacts.2.2.2.2.2 hne
          have h2 : st1.disp.manager.enclave_id ≠ "" := by
            rw [h1]
            exact hne
          rw [hIH.2.2.2.2 h2, h1]

/-! ## Claim theorems -/

/-- Claim C1 (amended): the Connection Listener's `stop` is invoked exactly
on the exits where a command handler marks the loop `Done`; on such exits it
precedes the final status reply and the thread join (everything after the
single `stop` in the trace is a join or a status write, so no
`get_next_connection` call follows it), and the Listener then reports zero
registered endpoints.  On `break` exits (hang-up, enclave-event error,
command-read failure) `stop` is not invoked inside the loop. -/
theorem c1_theorem (pid : Nat) (events : List ConnEvent) :
    ((ProcAction.listenerStop ∈ (runLoop pid initLoopState events).2.1) ↔
      (runLoop pid initLoopState events).1.done = true) ∧
    ((runLoop pid initLoopState events).1.done = true →
      (runLoop pid initLoopState events).1.disp.listener.registered = 0 ∧
      ∃ pre mid, (runLoop pid initLoopState events).2.1 =
          pre ++ ProcAction.listenerStop :: mid ∧
        ProcAction.listenerStop ∉ pre ∧ tailOk mid) := by
  have h := loop_facts pid events initLoopState rfl
  exact ⟨h.1, fun hd => ⟨(h.2.1 hd).1, (h.2.1 hd).2.2⟩⟩

/-- Witness for C1: a signal-triggered `ConnectionListenerStop` run. -/
theorem c1_witness :
    ((ProcAction.listenerStop ∈ (runLoop 0 initLoopState
        [ConnEvent.command (Except.ok .ConnectionListenerStop) envDefault]).2.1) ↔
      (runLoop 0 initLoopState
        [ConnEvent.command (Except.ok .ConnectionListenerStop) envDefault]).1.done = true) ∧
    ((runLoop 0 initLoopState
        [ConnEvent.command (Except.ok .ConnectionListenerStop) envDefault]).1.done = true →
      (runLoop 0 initLoopState
        [ConnEvent.command (Except.ok .ConnectionListenerStop) envDefault]).1.disp.listener.registered = 0 ∧
      ∃ pre mid, (runLoop 0 initLoopState
          [ConnEvent.command (Except.ok .ConnectionListenerStop) envDefault]).2.1 =
          pre ++ ProcAction.listenerStop :: mid ∧
        ProcAction.listenerStop ∉ pre ∧ tailOk mid) :=
  c1_theorem 0 [ConnEvent.command (Except.ok .ConnectionListenerStop) envDefault]

/-- Counterexample for C1 as stated: an enclave hang-up terminates the loop
(successfully), yet `stop` is never invoked inside the loop. -/
theorem c1_counterexample :
    (runLoop 0 initLoopState [ConnEvent.enclaveFlags [EFlag.EPOLLHUP]]).2.2 = true ∧
    (runLoop 0 initLoopState [ConnEvent.enclaveFlags [EFlag.EPOLLHUP]]).1.ret =
      Except.ok () ∧
    ProcAction.listenerStop ∉
      (runLoop 0 initLoopState [ConnEvent.enclaveFlags [EFlag.EPOLLHUP]]).2.1 := by
  refine ⟨rfl, rfl, ?_⟩
  decide

/-- Claim C2: a `Run` command handled while `enclave_id` is non-empty
yields status `EEXIST`, changes no state, reads no run-configuration
payload, and does not mark the loop `Done` (the loop continues). -/
theorem c2_theorem (pid : Nat) (st : LoopState) (env : CmdEnv)
    (hdone : st.done = false) (hid : st.disp.manager.enclave_id ≠ "") :
    loopIter pid st (.command (.ok .Run) env) =
      (st, [ProcAction.getNextConnection, ProcAction.recvCommand .Run,
            ProcAction.writeStatus EEXIST], .cont) := by
  rcases st with ⟨d, dn, r⟩
  dsimp only at hdone hid
  subst hdone
  rw [loopIter_cmd]
  dsimp only
  rw [hc_run_nonempty pid env d hid]
  simp [statusOf, isClientCmd]

/-- Witness for C2 at a state with an active enclave. -/
theorem c2_witness :
    loopIter 0 stActive (.command (.ok .Run) envDefault) =
      (stActive, [ProcAction.getNextConnection, ProcAction.recvCommand .Run,
        ProcAction.writeStatus EEXIST], .cont) :=
  c2_theorem 0 stActive envDefault rfl (by decide)

/-- Claim C3: `Terminate` (with a successfully spawned termination task)
returns status 0 without marking the loop `Done`; `TerminateComplete`
returns status 0 and marks the loop `Done`; and in any run the status-0
reply of the `Terminate` iteration stands in the trace strictly before
everything of later iterations, in particular before any
`TerminateComplete` is read. -/
theorem c3_theorem :
    (∀ (pid : Nat) (env : CmdEnv) (d : DispatchState),
      env.pair_result = Except.ok () →
      (handle_command pid .Terminate env d).1 = Except.ok (0, false)) ∧
    (∀ (pid : Nat) (env : CmdEnv) (d : DispatchState),
      (handle_command pid .TerminateComplete env d).1 = Except.ok (0, true)) ∧
    (∀ (pid : Nat) (st : LoopState) (env : CmdEnv) (rest : List ConnEvent),
      st.done = false → env.pair_result = Except.ok () →
      ∃ tr, (runLoop pid st (ConnEvent.command (Except.ok .Terminate) env :: rest)).2.1 =
        ProcAction.getNextConnection :: ProcAction.recvCommand .Terminate ::
        ProcAction.spawnTerminateThread :: ProcAction.writeStatus 0 :: tr) := by
  refine ⟨?_, ?_, ?_⟩
  · intro pid env d hp
    simp [handle_command, hp]
  · intro pid env d
    rfl
  · intro pid st env rest hdone hp
    have hterm : handle_command pid .Terminate env st.disp =
        (.ok (0, false),
         { st.disp with
           thread := some (),
           listener := { st.disp.listener with
                         registered := st.disp.listener.registered + 1 } },
         [.spawnTerminateThread]) := by
      simp [handle_command, hp]
    have hiter : loopIter pid st (.command (.ok .Terminate) env) =
        ({ disp := { st.disp with
                     thread := some (),
                     listener := { st.disp.listener with
                                   registered := st.disp.listener.registered + 1 } },
           done := false, ret := st.ret },
         [ProcAction.getNextConnection, ProcAction.recvCommand .Terminate,
          ProcAction.spawnTerminateThread, ProcAction.writeStatus 0], .cont) := by
      rw [loopIter_cmd]
      dsimp only
      rw [hterm]
      simp [statusOf, isClientCmd]
    rw [runLoop_cons pid st _ rest hdone, hiter]
    exact ⟨(runLoop pid _ rest).2.1, rfl⟩

/-- Witness for C3. -/
theorem c3_witness :
    (handle_command 0 .Terminate envDefault dispActive).1 = Except.ok (0, false) ∧
    (handle_command 0 .TerminateComplete envDefault dispActive).1 = Except.ok (0, true) ∧
    ∃ tr, (runLoop 0 stActive [ConnEvent.command (Except.ok .Terminate) envDefault]).2.1 =
      ProcAction.getNextConnection :: ProcAction.recvCommand .Terminate ::
      ProcAction.spawnTerminateThread :: ProcAction.writeStatus 0 :: tr :=
  ⟨c3_theorem.1 0 envDefault dispActive rfl,
   c3_theorem.2.1 0 envDefault dispActive,
   c3_theorem.2.2 0 stActive envDefault [] rfl rfl⟩

/-- Claim C4 (amended): a command-read failure is reported to the peer and
breaks the loop, but the loop's overall result is the previously recorded
`ret_value` — the state (including `ret_value`) is unchanged, so a
first-time read failure exits with success, not an error. -/
theorem c4_theorem (pid : Nat) (st : LoopState) (e : String) (env : CmdEnv)
    (rest : List ConnEvent) (hdone : st.done = false) :
    runLoop pid st (ConnEvent.command (Except.error e) env :: rest) =
      (st, [ProcAction.getNextConnection,
            ProcAction.eprintln ("Failed to read command type: " ++ e)], true) := by
  rw [runLoop_cons pid st _ rest hdone, loopIter_readErr]

/-- Witness for C4. -/
theorem c4_witness :
    runLoop 0 initLoopState
        [ConnEvent.command (Except.error "broken pipe") envDefault] =
      (initLoopState, [ProcAction.getNextConnection,
        ProcAction.eprintln ("Failed to read command type: " ++ "broken pipe")], true) :=
  c4_theorem 0 initLoopState "broken pipe" envDefault [] rfl

/-- Counterexample for C4 as stated: on a read failure `process_event_loop`
returns success (`Ok`), not an error, although the failure was reported to
the peer. -/
theorem c4_counterexample :
    (process_event_loop 0 setupOk
        [ConnEvent.command (Except.error "broken pipe") envDefault]).1 =
      some (Except.ok ()) ∧
    ProcAction.eprintln "Failed to read command type: broken pipe" ∈
      (process_event_loop 0 setupOk
        [ConnEvent.command (Except.error "broken pipe") envDefault]).2 := by
  refine ⟨rfl, ?_⟩
  decide

/-- Claim C5 (amended): on every exit where a command handler marked the
loop `Done`, the termination-task thread handle has been consumed (joined),
and whenever a termination task was spawned during such a run, a join is
recorded in the trace.  On `break` exits the thread is not joined inside
the loop. -/
theorem c5_theorem (pid : Nat) (events : List ConnEvent)
    (hdone : (runLoop pid initLoopState events).1.done = true) :
    (runLoop pid initLoopState events).1.disp.thread = none ∧
    (ProcAction.spawnTerminateThread ∈ (runLoop pid initLoopState events).2.1 →
      ProcAction.joinTerminateThread ∈ (runLoop pid initLoopState events).2.1) := by
  have h := loop_facts pid events initLoopState rfl
  have hnone := (h.2.1 hdone).2.1
  refine ⟨hnone, fun hmem => ?_⟩
  rcases h.2.2.1 hmem with h1 | h1
  · rw [hnone] at h1
    simp at h1
  · exact h1

/-- Witness for C5: `Terminate` followed by `TerminateComplete`. -/
theorem c5_witness :
    (runLoop 0 initLoopState [ConnEvent.command (Except.ok .Terminate) envDefault,
        ConnEvent.command (Except.ok .TerminateComplete) envDefault]).1.disp.thread = none ∧
    (ProcAction.spawnTerminateThread ∈
        (runLoop 0 initLoopState [ConnEvent.command (Except.ok .Terminate) envDefault,
          ConnEvent.command (Except.ok .TerminateComplete) envDefault]).2.1 →
      ProcAction.joinTerminateThread ∈
        (runLoop 0 initLoopState [ConnEvent.command (Except.ok .Terminate) envDefault,
          ConnEvent.command (Except.ok .TerminateComplete) envDefault]).2.1) :=
  c5_theorem 0 [ConnEvent.command (Except.ok .Terminate) envDefault,
    ConnEvent.command (Except.ok .TerminateComplete) envDefault] rfl

/-- Counterexample for C5 as stated: a hang-up arriving while a termination
task is in flight exits the loop without joining the spawned thread. -/
theorem c5_counterexample :
    (runLoop 0 initLoopState [ConnEvent.command (Except.ok .Terminate) envDefault,
        ConnEvent.enclaveFlags [EFlag.EPOLLHUP]]).2.2 = true ∧
    ProcAction.spawnTerminateThread ∈
      (runLoop 0 initLoopState [ConnEvent.command (Except.ok .Terminate) envDefault,
        ConnEvent.enclaveFlags [EFlag.EPOLLHUP]]).2.1 ∧
    ProcAction.joinTerminateThread ∉
      (runLoop 0 initLoopState [ConnEvent.command (Except.ok .Terminate) envDefault,
        ConnEvent.enclaveFlags [EFlag.EPOLLHUP]]).2.1 ∧
    (runLoop 0 initLoopState [ConnEvent.command (Except.ok .Terminate) envDefault,
        ConnEvent.enclaveFlags [EFlag.EPOLLHUP]]).1.disp.thread = some () := by
  refine ⟨rfl, ?_, ?_, rfl⟩
  · decide
  · decide

/-- Claim C6: in a loop iteration that dispatches a command, a status reply
is written if and only if the command is `Run`, `Terminate` or `Describe`;
iterations that handle an enclave event or fail to read a command never
write a status reply. -/
theorem c6_theorem (pid : Nat) (st : LoopState) :
    (∀ (cmd : EnclaveProcessCommandType) (env : CmdEnv),
      (∃ k, ProcAction.writeStatus k ∈ (loopIter pid st (.command (.ok cmd) env)).2.1) ↔
        (cmd = .Run ∨ cmd = .Terminate ∨ cmd = .Describe)) ∧
    (∀ (flags : List EFlag) (k : Int),
      ProcAction.writeStatus k ∉ (loopIter pid st (.enclaveFlags flags)).2.1) ∧
    (∀ (e : String) (env : CmdEnv) (k : Int),
      ProcAction.writeStatus k ∉ (loopIter pid st (.command (.error e) env)).2.1) := by
  refine ⟨?_, ?_, ?_⟩
  · intro cmd env
    have hcl : isClientCmd cmd = true ↔ (cmd = .Run ∨ cmd = .Terminate ∨ cmd = .Describe) := by
      cases cmd <;> simp [isClientCmd]
    rw [loopIter_cmd, ← hcl]
    rcases hhc : handle_command pid cmd env st.disp with ⟨res, d1, acts⟩
    dsimp only
    have hwacts : ∀ k : Int, ProcAction.writeStatus k ∉ acts := by
      intro k hmem
      have h2 := @hc_act_mem pid cmd env st.disp
        (ProcAction.writeStatus k) (by rw [hhc]; exact hmem)
      simp [hcAct] at h2
    constructor
    · rintro ⟨k, hmem⟩
      by_contra hn
      have hclf : isClientCmd cmd = false := Bool.eq_false_iff.mpr hn
      cases res with
      | ok cb =>
        rcases cb with ⟨c, b⟩
        cases hth : d1.thread.isSome <;> cases b <;>
          simp [statusOf, hclf, hth, hwacts] at hmem
      | error e =>
        cases hth : d1.thread.isSome <;>
          simp [statusOf, hclf, hth, hwacts] at hmem
    · intro h
      refine ⟨(statusOf res).1, ?_⟩
      simp [h]
  · intro flags k
    cases hb : flags.contains EFlag.EPOLLHUP
    · rw [loopIter_flags_nohup pid st flags hb]
      split <;> simp
    · rw [loopIter_flags_hup pid st flags hb]
      split <;> simp
  · intro e env k
    rw [loopIter_readErr]
    simp

/-- Witness for C6 at concrete iterations. -/
theorem c6_witness :
    ((∃ k, ProcAction.writeStatus k ∈ (loopIter 0 stActive
        (.command (.ok .GetEnclaveCID) envDefault)).2.1) ↔
      (EnclaveProcessCommandType.GetEnclaveCID = .Run ∨
       EnclaveProcessCommandType.GetEnclaveCID = .Terminate ∨
       EnclaveProcessCommandType.GetEnclaveCID = .Describe)) ∧
    (ProcAction.writeStatus 0 ∉ (loopIter 0 stActive (.enclaveFlags [EFlag.EPOLLERR])).2.1) ∧
    (ProcAction.writeStatus 0 ∉
      (loopIter 0 stActive (.command (.error "oops") envDefault)).2.1) :=
  ⟨(c6_theorem 0 stActive).1 .GetEnclaveCID envDefault,
   (c6_theorem 0 stActive).2.1 [EFlag.EPOLLERR] 0,
   (c6_theorem 0 stActive).2.2 "oops" envDefault 0⟩

/-- Claim C7: an enclave flag set containing the hang-up flag has its
unrelated flags logged, is classified `HangUp`, and makes the loop break
leaving the state (including the success result) unchanged; a non-empty
flag set without the hang-up flag is classified `Unexpected` and the loop
continues with the state unchanged. -/
theorem c7_theorem (pid : Nat) (st : LoopState) (flags : List EFlag)
    (hdone : st.done = false) :
    (flags.contains EFlag.EPOLLHUP = true →
      ∃ logs, try_handle_enclave_event (Except.ok (some flags)) =
          Except.ok (HandledEnclaveEvent.HangUp, logs) ∧
        ((flags.filter (fun f => f != EFlag.EPOLLHUP)).isEmpty = false →
          ProcAction.warnUnexpectedFlags
            (flags.filter (fun f => f != EFlag.EPOLLHUP)) ∈ logs) ∧
        (∀ rest, runLoop pid st (ConnEvent.enclaveFlags flags :: rest) =
          (st, ProcAction.getNextConnection :: logs, true))) ∧
    (flags.contains EFlag.EPOLLHUP = false → flags.isEmpty = false →
      ∃ logs, try_handle_enclave_event (Except.ok (some flags)) =
          Except.ok (HandledEnclaveEvent.Unexpected, logs) ∧
        loopIter pid st (ConnEvent.enclaveFlags flags) =
          (st, ProcAction.getNextConnection :: logs, Ctl.cont)) := by
  constructor
  · intro h
    have hm : EFlag.EPOLLHUP ∈ flags := by simpa using h
    refine ⟨(if (flags.filter (fun f => f != EFlag.EPOLLHUP)).isEmpty then [] else
        [ProcAction.warnUnexpectedFlags (flags.filter (fun f => f != EFlag.EPOLLHUP))]) ++
      [ProcAction.logWarn
        "Received hang-up event from the enclave. Enclave process will shut down."],
      ?_, ?_, ?_⟩
    · simp [try_handle_enclave_event, hm]
    · intro hne
      simp [hne]
    · intro rest
      rw [runLoop_cons pid st _ rest hdone, loopIter_flags_hup pid st flags h]
  · intro h _hne
    have hm : EFlag.EPOLLHUP ∉ flags := by simpa using h
    refine ⟨(if (flags.filter (fun f => f != EFlag.EPOLLHUP)).isEmpty then [] else
        [ProcAction.warnUnexpectedFlags (flags.filter (fun f => f != EFlag.EPOLLHUP))]),
      ?_, ?_⟩
    · simp [try_handle_enclave_event, hm]
    · exact loopIter_flags_nohup pid st flags h

/-- Witness for C7: hang-up together with an unrelated flag, and an
unrelated flag alone. -/
theorem c7_witness :
    (∃ logs, try_handle_enclave_event
        (Except.ok (some [EFlag.EPOLLHUP, EFlag.EPOLLERR])) =
        Except.ok (HandledEnclaveEvent.HangUp, logs) ∧
      ((([EFlag.EPOLLHUP, EFlag.EPOLLERR].filter
          (fun f => f != EFlag.EPOLLHUP)).isEmpty = false →
        ProcAction.warnUnexpectedFlags
          ([EFlag.EPOLLHUP, EFlag.EPOLLERR].filter
            (fun f => f != EFlag.EPOLLHUP)) ∈ logs)) ∧
      (∀ rest, runLoop 0 stActive
          (ConnEvent.enclaveFlags [EFlag.EPOLLHUP, EFlag.EPOLLERR] :: rest) =
        (stActive, ProcAction.getNextConnection :: logs, true))) ∧
    (∃ logs, try_handle_enclave_event (Except.ok (some [EFlag.EPOLLERR])) =
        Except.ok (HandledEnclaveEvent.Unexpected, logs) ∧
      loopIter 0 stActive (ConnEvent.enclaveFlags [EFlag.EPOLLERR]) =
        (stActive, ProcAction.getNextConnection :: logs, Ctl.cont)) :=
  ⟨(c7_theorem 0 stActive [EFlag.EPOLLHUP, EFlag.EPOLLERR] rfl).1 (by decide),
   (c7_theorem 0 stActive [EFlag.EPOLLERR] rfl).2 (by decide) (by decide)⟩

/-- Claim C8: when a command handler returns an error, the error message is
forwarded to the peer, the loop is marked `Done`, the reply status code is
forced to `EINVAL` (written when the command is client-originated), and the
iteration ends through the normal path rather than a break. -/
theorem c8_theorem (pid : Nat) (st : LoopState) (cmd : EnclaveProcessCommandType)
    (env : CmdEnv) (e : String)
    (herr : (handle_command pid cmd env st.disp).1 = Except.error e) :
    (loopIter pid st (.command (.ok cmd) env)).1.done = true ∧
    ProcAction.eprintln ("Error: " ++ e) ∈ (loopIter pid st (.command (.ok cmd) env)).2.1 ∧
    (isClientCmd cmd = true →
      ProcAction.writeStatus EINVAL ∈ (loopIter pid st (.command (.ok cmd) env)).2.1) ∧
    (loopIter pid st (.command (.ok cmd) env)).2.2 = Ctl.cont := by
  rw [loopIter_cmd]
  rcases hhc : handle_command pid cmd env st.disp with ⟨res, d1, acts⟩
  rw [hhc] at herr
  dsimp only at herr ⊢
  subst herr
  refine ⟨by simp [statusOf], by simp [statusOf], fun hcl => by simp [statusOf, hcl], rfl⟩

/-- Witness for C8: `GetEnclaveCID` with no enclave running fails in the
handler. -/
theorem c8_witness :
    (loopIter 0 initLoopState (.command (.ok .GetEnclaveCID) envDefault)).1.done = true ∧
    ProcAction.eprintln ("Error: " ++ "Failed to get enclave CID: no enclave") ∈
      (loopIter 0 initLoopState (.command (.ok .GetEnclaveCID) envDefault)).2.1 ∧
    (isClientCmd .GetEnclaveCID = true →
      ProcAction.writeStatus EINVAL ∈
        (loopIter 0 initLoopState (.command (.ok .GetEnclaveCID) envDefault)).2.1) ∧
    (loopIter 0 initLoopState (.command (.ok .GetEnclaveCID) envDefault)).2.2 = Ctl.cont :=
  c8_theorem 0 initLoopState .GetEnclaveCID envDefault
    "Failed to get enclave CID: no enclave" rfl

/-- Claim C9 (amended): `enclave_id` is empty at loop start; no handler
other than `Run` ever changes the Enclave Manager handle; a `Run` handled
while `enclave_id` is non-empty changes nothing; a `Run` handled while it
is empty changes the manager only to the handle returned by a successful
creation delegate (even when a later step of the same `Run` fails, in which
case the loop is marked `Done`); and once `enclave_id` is non-empty, the
manager never changes again for the rest of the run — so the empty to
non-empty transition happens at most once per supervisor lifetime. -/
theorem c9_theorem :
    initLoopState.disp.manager.enclave_id = "" ∧
    (∀ (pid : Nat) (cmd : EnclaveProcessCommandType) (env : CmdEnv) (d : DispatchState),
      cmd ≠ .Run → (handle_command pid cmd env d).2.1.manager = d.manager) ∧
    (∀ (pid : Nat) (env : CmdEnv) (d : DispatchState),
      d.manager.enclave_id ≠ "" →
      handle_command pid .Run env d = (.ok (EEXIST, false), d, [])) ∧
    (∀ (pid : Nat) (env : CmdEnv) (d : DispatchState),
      d.manager.enclave_id = "" →
      (handle_command pid .Run env d).2.1.manager = d.manager ∨
      ∃ m, env.run_result = .ok m ∧ (handle_command pid .Run env d).2.1.manager = m) ∧
    (∀ (pid : Nat) (st : LoopState) (events : List ConnEvent),
      st.done = false → st.disp.manager.enclave_id ≠ "" →
      (runLoop pid st events).1.disp.manager = st.disp.manager) := by
  refine ⟨rfl, ?_, ?_, ?_, ?_⟩
  · intro pid cmd env d h
    exact hc_manager_other pid cmd env d h
  · intro pid env d h
    exact hc_run_nonempty pid env d h
  · intro pid env d h
    exact hc_run_empty pid env d h
  · intro pid st events hdone hne
    exact (loop_facts pid events st hdone).2.2.2.2 hne

/-- Witness for C9. -/
theorem c9_witness :
    initLoopState.disp.manager.enclave_id = "" ∧
    (handle_command 0 .Describe envDefault initDisp).2.1.manager = initDisp.manager ∧
    handle_command 0 .Run envDefault dispActive = (.ok (EEXIST, false), dispActive, []) ∧
    ((handle_command 0 .Run envDefault initDisp).2.1.manager = initDisp.manager ∨
      ∃ m, envDefault.run_result = .ok m ∧
        (handle_command 0 .Run envDefault initDisp).2.1.manager = m) ∧
    (runLoop 0 stActive [ConnEvent.command (Except.ok .Describe) envDefault]).1.disp.manager =
      stActive.disp.manager :=
  ⟨c9_theorem.1,
   c9_theorem.2.1 0 .Describe envDefault initDisp (by decide),
   c9_theorem.2.2.1 0 envDefault dispActive (by decide),
   c9_theorem.2.2.2.1 0 envDefault initDisp rfl,
   c9_theorem.2.2.2.2 0 stActive [ConnEvent.command (Except.ok .Describe) envDefault]
     rfl (by decide)⟩

/-- Counterexample for C9 as stated: a `Run` whose listener-start step
fails is not a successful `Run` (the handler returns an error), yet it has
already assigned a non-empty `enclave_id`. -/
theorem c9_counterexample :
    (handle_command 0 .Run envStartFail initDisp).1 =
      Except.error "Failed to start connection listener: bind failed" ∧
    (handle_command 0 .Run envStartFail initDisp).2.1.manager.enclave_id =
      "i-abc-enc1a2b3c" := ⟨rfl, rfl⟩

/-- Witness for C10 at a concrete enclave ID. -/
theorem c10_witness :
    get_logger_id "i-abc-enc1a2b3c" 42 = some (loggerIdSpec "i-abc-enc1a2b3c" 42) :=
  c10_theorem "i-abc-enc1a2b3c" 42
